import Mathlib

/-!
Verification of the BaseMatch quota / match-detection core against its
specification.  The definitions below are a shallow embedding of the
JavaScript source files of the repository:

* `BM0` embeds the quota logic of `src/unnamed/part_000`
  (`handleSwipe`, `resetSwipeCount`, `handleGoPremium`), with machine
  timestamps as mathematical integers (milliseconds) and the Firestore
  user-status document as an explicit record.  The code runs its
  read-modify-write inside a Firestore transaction; the embedding is the
  sequential semantics of that transaction (one call at a time per user),
  which is the setting of the claims about call sequences.
* `BM1` embeds the matchmaking logic of `src/unnamed/part_001`
  (`checkForMatch` and the like-recording steps of `handleSwipe`), with
  the three Firestore collections (public likes, per-user private likes,
  per-user matches) as explicit lists.  `addDoc` creates a fresh document
  on every call and is embedded as a `cons`; `setDoc` at a fixed path is
  keyed insertion/overwrite.
* `BM2` embeds the quota gate of `src/unnamed/part_002` (`handleSwipe`).
-/

namespace BM0

/-- `MILLISECONDS_IN_DAY` from part_000 line 12: `24 * 60 * 60 * 1000`. -/
def MILLISECONDS_IN_DAY : Int := 24 * 60 * 60 * 1000

/-- `DAILY_LIMIT` from part_000 line 11. -/
def DAILY_LIMIT : Nat := 50

/-- The per-user status document (`INITIAL_USER_STATUS` shape, part_000
lines 77-81): `swipeCount`, `lastSwipeDate` (ms since epoch), `isPremium`. -/
structure UserStatus where
  swipeCount : Nat
  lastSwipeDate : Int
  isPremium : Bool
deriving DecidableEq, Repr

/-- Outcome of one `handleSwipe` call:
`unlimited` = the premium branch (part_000 lines 234-237),
`limitModal` = the daily-limit rejection (lines 240-243, no write),
`success r` = a successful consume with `r` swipes remaining
(lines 268-276; `r = 0` is the "Limit Reached: 50/50" message). -/
inductive SwipeOutcome where
  | unlimited : SwipeOutcome
  | limitModal : SwipeOutcome
  | success : Nat → SwipeOutcome
deriving DecidableEq, Repr

/-- A call is allowed (the swipe happened) unless the limit modal was
shown.  `unlimited` and `success` both display "Swipe successful!". -/
def SwipeOutcome.isAllowed : SwipeOutcome → Bool
  | .limitModal => false
  | _ => true

/-- `resetSwipeCount` (part_000 lines 202-225): early-return for premium
users; reset `swipeCount` to 0 and `lastSwipeDate` to `now` only when at
least 24 hours elapsed since `lastSwipeDate` AND `swipeCount > 0`. -/
def resetSwipeCount (s : UserStatus) (now : Int) : UserStatus :=
  if s.isPremium then s
  else if MILLISECONDS_IN_DAY ≤ now - s.lastSwipeDate ∧ 0 < s.swipeCount then
    { s with swipeCount := 0, lastSwipeDate := now }
  else s

/-- The body of the `runTransaction` callback in `handleSwipe` (part_000
lines 247-266): re-check the limit on the stored data; if already at the
limit return `DAILY_LIMIT` without writing, otherwise write the
incremented count together with the current date and return the new
count.  `limit` abstracts the constant `DAILY_LIMIT`. -/
def swipeTransaction (limit : Nat) (data : UserStatus) (now : Int) :
    UserStatus × Nat :=
  if limit ≤ data.swipeCount then (data, limit)
  else ({ data with swipeCount := data.swipeCount + 1, lastSwipeDate := now },
        data.swipeCount + 1)

/-- `handleSwipe` (part_000 lines 228-283), sequentially (the component
state `userStatus` agrees with the stored document): premium users pass
unconditionally with no write; otherwise the pre-check at lines 240-243
rejects when `swipeCount >= DAILY_LIMIT`, else the transaction increments
the count and the remaining budget `limit - newCount` is reported. -/
def handleSwipeWith (limit : Nat) (s : UserStatus) (now : Int) :
    UserStatus × SwipeOutcome :=
  if s.isPremium then (s, .unlimited)
  else if limit ≤ s.swipeCount then (s, .limitModal)
  else
    let r := swipeTransaction limit s now
    (r.1, .success (limit - r.2))

/-- `handleSwipe` at the source's constant limit. -/
def handleSwipe (s : UserStatus) (now : Int) : UserStatus × SwipeOutcome :=
  handleSwipeWith DAILY_LIMIT s now

/-- The displayed remaining budget (part_000 lines 313-315):
`Math.max(0, DAILY_LIMIT - swipeCount)`, which is truncated subtraction. -/
def swipesRemaining (limit : Nat) (s : UserStatus) : Nat :=
  limit - s.swipeCount

/-- `handleGoPremium` (part_000 lines 286-301): `updateDoc` with
`isPremium: true, swipeCount: 0`; the stored `lastSwipeDate` is not
touched. -/
def handleGoPremium (s : UserStatus) : UserStatus :=
  { s with isPremium := true, swipeCount := 0 }

/-- One user-visible swipe attempt: the snapshot listener (part_000
line 177) has run `resetSwipeCount` on the current status before
`handleSwipe` reads it.  This composition is the code's realization of
the spec's `tryConsume`. -/
def tryConsume (limit : Nat) (s : UserStatus) (now : Int) :
    UserStatus × SwipeOutcome :=
  handleSwipeWith limit (resetSwipeCount s now) now

/-- Run a sequence of `handleSwipe` calls (all inside one quota window:
no `resetSwipeCount` in between), returning the final status and the
outcome of each call in order. -/
def runSwipes (limit : Nat) (s : UserStatus) : List Int →
    UserStatus × List SwipeOutcome
  | [] => (s, [])
  | t :: ts =>
    let r := handleSwipeWith limit s t
    let rest := runSwipes limit r.1 ts
    (rest.1, r.2 :: rest.2)

/-- Number of calls in a run that were allowed. -/
def countAllowed (os : List SwipeOutcome) : Nat :=
  (os.filter SwipeOutcome.isAllowed).length

end BM0

namespace BM1

/-- User and profile identifiers are opaque strings (Firebase uids,
mock-profile ids). -/
abbrev UserId := String

/-- The Firestore state touched by the matchmaking logic of part_001:
`pub` is the public likes collection (`artifacts/{appId}/public/data/likes`,
documents `{likerId, likedId}` created by `addDoc`, so duplicates are
possible and embedding is a `cons`); `priv` is the union of the per-user
private likes collections, keyed by `(owner, likedProfileId)` (`setDoc`
at a fixed document id); `matches` is the union of the per-user matches
collections, entries `(owner, matchId, partnerId)` keyed by
`(owner, matchId)` (`setDoc` with merge).  Timestamp fields are not
inspected by any claim and are omitted. -/
structure MatchState where
  pub : List (UserId × UserId)
  priv : List (UserId × UserId)
  matchDocs : List (UserId × String × UserId)
deriving DecidableEq, Repr

/-- The empty store. -/
def MatchState.empty : MatchState := ⟨[], [], []⟩

/-- Lexicographic comparison of character lists by code point, the order
JavaScript's default sort comparator uses on strings (code units; equal
to code points for the ASCII identifiers at hand). -/
def jsLtChars : List Char → List Char → Bool
  | [], [] => false
  | [], _ :: _ => true
  | _ :: _, [] => false
  | a :: as, b :: bs =>
    if a.toNat < b.toNat then true
    else if b.toNat < a.toNat then false
    else jsLtChars as bs

/-- String comparison as performed by JavaScript's `Array.prototype.sort`
default comparator. -/
def jsLt (a b : String) : Bool := jsLtChars a.data b.data

/-- The canonical match id (part_001 line 903):
`[userId, likedProfileId].sort().join('_')` — the two ids joined by an
underscore in lexicographic order (`sort` is stable, so equal ids keep
their order and the two branches agree). -/
def matchKey (userId likedProfileId : UserId) : String :=
  if jsLt likedProfileId userId then likedProfileId ++ "_" ++ userId
  else userId ++ "_" ++ likedProfileId

/-- `setDoc(..., { merge: true })` at document `matchId` of `owner`'s
matches collection (part_001 lines 906-910): if a document with that key
exists its fields are overwritten, otherwise a document is created. -/
def setDocMerge (ms : List (UserId × String × UserId)) (owner : UserId)
    (mid : String) (partner : UserId) : List (UserId × String × UserId) :=
  if ms.any (fun r => r.1 == owner && r.2.1 == mid) then
    ms.map (fun r => if r.1 == owner && r.2.1 == mid then (owner, mid, partner) else r)
  else (owner, mid, partner) :: ms

/-- `setDoc` at the fixed document id `likedProfileId` of the owner's
private likes collection (part_001 lines 977-982): one document per key;
a repeat write overwrites the document with the same fields (the stored
`action`/`timestamp` values are not modelled), so the key set is the
whole content. -/
def setDocKeyed (ps : List (UserId × UserId)) (k : UserId × UserId) :
    List (UserId × UserId) :=
  if k ∈ ps then ps else k :: ps

/-- `checkForMatch` (part_001 lines 887-923): query the public likes for
a like from `likedProfileId` to `userId`; if one exists, write the match
document at the deterministic `matchId` into the current user's matches
collection and fire the match notification.  Returns the new state,
whether a match was found, and the match id it produced. -/
def checkForMatch (st : MatchState) (userId likedProfileId : UserId) :
    MatchState × Bool × Option String :=
  if st.pub.any (fun e => e.1 == likedProfileId && e.2 == userId) then
    let matchId := matchKey userId likedProfileId
    ({ st with matchDocs := setDocMerge st.matchDocs userId matchId likedProfileId },
     true, some matchId)
  else (st, false, none)

/-- The like path of `handleSwipe` (part_001 lines 976-995): record the
swipe in the user's private likes (step 4, `setDoc` at a fixed id), add a
fresh document to the public likes (step 5, `addDoc`), then run
`checkForMatch`.  The quota steps 1-3 of `handleSwipe` belong to the
quota component and are embedded in `BM0`/`BM2`; this operation is the
code's realization of the spec's `MatchDetector.evaluate`. -/
def likeSwipe (st : MatchState) (u p : UserId) : MatchState × Bool × Option String :=
  let st1 := { st with priv := setDocKeyed st.priv (u, p) }
  let st2 := { st1 with pub := (u, p) :: st1.pub }
  checkForMatch st2 u p

/-- Apply a list of like events (liker, liked) to the empty store. -/
def runLikes (evs : List (UserId × UserId)) : MatchState :=
  evs.foldl (fun st e => (likeSwipe st e.1 e.2).1) MatchState.empty

/-- A public like from `a` to `b` exists. -/
def pubHas (st : MatchState) (a b : UserId) : Bool :=
  st.pub.any (fun e => e.1 == a && e.2 == b)

/-- A match record whose participants (owner and stored `partnerId`) are
exactly the pair `{a, b}` exists in some user's matches collection. -/
def matchFor (st : MatchState) (a b : UserId) : Bool :=
  st.matchDocs.any (fun r => (r.1 == a && r.2.2 == b) || (r.1 == b && r.2.2 == a))

/-- An id that does not contain the underscore used by `matchKey` as a
separator. -/
def noUnderscore (s : String) : Bool :=
  s.data.all (fun c => c != '_')

/-- Invariant tying the matches collections to the public likes:
every match document is keyed by the canonical id of its owner/partner
pair and is backed by both directed likes; every mutually-liked pair has
a match document; all recorded ids are underscore-free. -/
def Inv (st : MatchState) : Prop :=
  (∀ r ∈ st.matchDocs, r.2.1 = matchKey r.1 r.2.2 ∧
    (r.1, r.2.2) ∈ st.pub ∧ (r.2.2, r.1) ∈ st.pub) ∧
  (∀ a b : UserId, (a, b) ∈ st.pub → (b, a) ∈ st.pub →
    matchFor st a b = true) ∧
  (∀ e ∈ st.pub, noUnderscore e.1 = true ∧ noUnderscore e.2 = true)

end BM1

namespace BM2

/-- `DAILY_SWIPE_LIMIT` from part_002 line 14. -/
def DAILY_SWIPE_LIMIT : Nat := 50

/-- The `swipeData` status read from the user document (part_002 lines
83-87, 113-117); the `lastReset` timestamp is only consulted by the
calendar-day reset effect, not by `handleSwipe`, and is omitted here. -/
structure SwipeData where
  count : Nat
  isPremium : Bool
deriving DecidableEq, Repr

/-- `handleSwipe` (part_002 lines 153-186): `canSwipe` iff premium or
under the limit; blocked swipes show the modal and write nothing;
allowed swipes increment the stored count only when not premium.  The
returned `Bool` is whether the swipe went through. -/
def handleSwipe (d : SwipeData) : SwipeData × Bool :=
  let canSwipe := d.isPremium || decide (d.count < DAILY_SWIPE_LIMIT)
  if !canSwipe then (d, false)
  else if d.isPremium then (d, true)
  else ({ d with count := d.count + 1 }, true)

end BM2

namespace BM0

theorem countAllowed_nil : countAllowed [] = 0 := rfl

theorem countAllowed_cons_success (r : Nat) (os : List SwipeOutcome) :
    countAllowed (.success r :: os) = countAllowed os + 1 := rfl

theorem countAllowed_cons_blocked (os : List SwipeOutcome) :
    countAllowed (.limitModal :: os) = countAllowed os := rfl

theorem runSwipes_nil (limit : Nat) (s : UserStatus) :
    runSwipes limit s [] = (s, []) := rfl

theorem runSwipes_cons (limit : Nat) (s : UserStatus) (t : Int) (ts : List Int) :
    runSwipes limit s (t :: ts) =
      ((runSwipes limit (handleSwipeWith limit s t).1 ts).1,
       (handleSwipeWith limit s t).2 ::
         (runSwipes limit (handleSwipeWith limit s t).1 ts).2) := rfl

/-- Behaviour of one non-premium call: blocked calls leave the state
unchanged, allowed calls increment the count by one. -/
theorem handleSwipeWith_not_premium (limit : Nat) (s : UserStatus) (t : Int)
    (hp : s.isPremium = false) :
    (limit ≤ s.swipeCount ∧ handleSwipeWith limit s t = (s, .limitModal)) ∨
    (s.swipeCount < limit ∧
      handleSwipeWith limit s t =
        ({ s with swipeCount := s.swipeCount + 1, lastSwipeDate := t },
         .success (limit - (s.swipeCount + 1)))) := by
  by_cases hc : limit ≤ s.swipeCount
  · exact Or.inl ⟨hc, by simp [handleSwipeWith, hp, hc]⟩
  · refine Or.inr ⟨Nat.lt_of_not_le hc, ?_⟩
    simp [handleSwipeWith, hp, hc, swipeTransaction, Nat.not_le.mpr (Nat.lt_of_not_le hc)]

/-- Invariant of a run of non-premium swipes: premium stays off, the
final count is the initial count plus the number of allowed calls, and
the count never exceeds the limit if it started below it. -/
theorem runSwipes_spec (limit : Nat) :
    ∀ (ts : List Int) (s : UserStatus), s.isPremium = false →
      (runSwipes limit s ts).1.isPremium = false ∧
      (runSwipes limit s ts).1.swipeCount =
        s.swipeCount + countAllowed (runSwipes limit s ts).2 ∧
      (s.swipeCount ≤ limit → (runSwipes limit s ts).1.swipeCount ≤ limit) := by
  intro ts
  induction ts with
  | nil => intro s hp; simp [runSwipes_nil, countAllowed_nil, hp]
  | cons t ts ih =>
    intro s hp
    rcases handleSwipeWith_not_premium limit s t hp with ⟨hc, he⟩ | ⟨hc, he⟩
    · have h := ih s hp
      simp only [runSwipes_cons, he, countAllowed_cons_blocked]
      exact h
    · have h := ih { s with swipeCount := s.swipeCount + 1, lastSwipeDate := t }
        (by simpa using hp)
      have hcnt : ({ s with swipeCount := s.swipeCount + 1, lastSwipeDate := t } :
          UserStatus).swipeCount = s.swipeCount + 1 := rfl
      simp only [runSwipes_cons, he, countAllowed_cons_success]
      refine ⟨h.1, ?_, ?_⟩
      · have h21 := h.2.1
        rw [hcnt] at h21
        omega
      · intro _
        exact h.2.2 (by rw [hcnt]; omega)

end BM0

/-- C1.  Quota monotonicity: for every sequence of swipe attempts by one
non-premium user starting from a fresh window (`swipeCount = 0`), run
with limit `L` and no window rollover in between, the number of calls
that are allowed never exceeds `L`, and the stored `swipeCount` after
any prefix of the sequence never exceeds `L`.  (The code's transaction
serializes concurrent callers, so every interleaving is one such
sequence.) -/
theorem tryConsume_quota_monotonicity (L : Nat) (s0 : BM0.UserStatus)
    (ts : List Int) (hp : s0.isPremium = false) (h0 : s0.swipeCount = 0) :
    BM0.countAllowed (BM0.runSwipes L s0 ts).2 ≤ L ∧
    ∀ n, (BM0.runSwipes L s0 (ts.take n)).1.swipeCount ≤ L := by
  constructor
  · have h := BM0.runSwipes_spec L ts s0 hp
    have hle := h.2.2 (by omega)
    omega
  · intro n
    exact (BM0.runSwipes_spec L (ts.take n) s0 hp).2.2 (by omega)

/-- Witness for C1 at a concrete input: limit 2, three attempts. -/
theorem tryConsume_quota_monotonicity_witness :
    BM0.countAllowed (BM0.runSwipes 2 ⟨0, 0, false⟩ [0, 0, 0]).2 ≤ 2 ∧
    (BM0.runSwipes 2 ⟨0, 0, false⟩ ([0, 0, 0].take 3)).1.swipeCount ≤ 2 :=
  ⟨(tryConsume_quota_monotonicity 2 ⟨0, 0, false⟩ [0, 0, 0] rfl rfl).1,
   (tryConsume_quota_monotonicity 2 ⟨0, 0, false⟩ [0, 0, 0] rfl rfl).2 3⟩

/-- C2.  With the source's limit 50 and a fresh non-premium status, the
first 50 calls are allowed with remaining 49 down to 0 and the 51st call
is blocked by the limit modal. -/
theorem tryConsume_fifty_scenario :
    (BM0.runSwipes BM0.DAILY_LIMIT ⟨0, 0, false⟩ (List.replicate 51 0)).2 =
      (List.range 50).map (fun i => BM0.SwipeOutcome.success (49 - i)) ++
        [BM0.SwipeOutcome.limitModal] := by decide

/-- C6 counterexample.  The claim says a call with `now − t0 ≥ 24h`
always resets `swipeCount` to 0 and sets the stored timestamp to `now`.
With `swipeCount = 0` and a stale timestamp `t0 = 0`, a check a full day
later leaves the record untouched: the stored timestamp stays `0`
instead of becoming `now`, because the reset branch additionally
requires `swipeCount > 0`. -/
theorem rollover_at_24h_counterexample :
    BM0.resetSwipeCount ⟨0, 0, false⟩ BM0.MILLISECONDS_IN_DAY = ⟨0, 0, false⟩ ∧
    (BM0.resetSwipeCount ⟨0, 0, false⟩ BM0.MILLISECONDS_IN_DAY).lastSwipeDate ≠
      BM0.MILLISECONDS_IN_DAY := by decide

/-- C6 amended.  For a non-premium user with `swipeCount > 0`, a call at
`now` with `now − lastSwipeDate ≥ 24h` first resets `swipeCount` to 0
and sets the stored timestamp to `now`, and the consume check of
`tryConsume` is applied to that reset state. -/
theorem rollover_resets_before_consume (limit : Nat) (s : BM0.UserStatus)
    (now : Int) (hp : s.isPremium = false) (hc : 0 < s.swipeCount)
    (ht : BM0.MILLISECONDS_IN_DAY ≤ now - s.lastSwipeDate) :
    BM0.resetSwipeCount s now = ⟨0, now, false⟩ ∧
    BM0.tryConsume limit s now =
      BM0.handleSwipeWith limit ⟨0, now, false⟩ now := by
  have h : BM0.resetSwipeCount s now = ⟨0, now, false⟩ := by
    simp only [BM0.resetSwipeCount, hp, Bool.false_eq_true, if_false,
      if_pos (And.intro ht hc)]
  exact ⟨h, by simp only [BM0.tryConsume, h]⟩

/-- Witness for C6 amended at a concrete input. -/
theorem rollover_resets_before_consume_witness :
    BM0.resetSwipeCount ⟨7, 0, false⟩ BM0.MILLISECONDS_IN_DAY =
      ⟨0, BM0.MILLISECONDS_IN_DAY, false⟩ ∧
    BM0.tryConsume 50 ⟨7, 0, false⟩ BM0.MILLISECONDS_IN_DAY =
      BM0.handleSwipeWith 50 ⟨0, BM0.MILLISECONDS_IN_DAY, false⟩
        BM0.MILLISECONDS_IN_DAY :=
  rollover_resets_before_consume 50 ⟨7, 0, false⟩ BM0.MILLISECONDS_IN_DAY
    rfl (by decide) (by decide)

/-- C7 counterexample.  The claim says `upgradeToPremium` also resets
the window start to `now`.  Upgrading the status
`⟨swipeCount 5, lastSwipeDate 0⟩` at wall-clock time `now = 99` does not
produce the claimed state `⟨0, 99, true⟩`: `handleGoPremium` writes only
`isPremium` and `swipeCount`, leaving the stored timestamp at `0`. -/
theorem upgradeToPremium_counterexample :
    BM0.handleGoPremium ⟨5, 0, false⟩ ≠ ⟨0, 99, true⟩ ∧
    BM0.handleGoPremium ⟨5, 0, false⟩ = ⟨0, 0, true⟩ := by decide

/-- C7 amended.  `handleGoPremium` sets `isPremium` and resets
`swipeCount` to 0 while leaving the stored timestamp unchanged; it is
idempotent; and afterwards every `tryConsume` is allowed with no
further mutation, for every limit including 0. -/
theorem upgradeToPremium_idempotent_unblocks (s : BM0.UserStatus) :
    BM0.handleGoPremium s = ⟨0, s.lastSwipeDate, true⟩ ∧
    BM0.handleGoPremium (BM0.handleGoPremium s) = BM0.handleGoPremium s ∧
    (∀ (limit : Nat) (now : Int),
      BM0.tryConsume limit (BM0.handleGoPremium s) now =
        (BM0.handleGoPremium s, .unlimited) ∧
      (BM0.SwipeOutcome.unlimited).isAllowed = true) := by
  refine ⟨rfl, rfl, fun limit now => ⟨?_, rfl⟩⟩
  simp [BM0.tryConsume, BM0.resetSwipeCount, BM0.handleSwipeWith,
    BM0.handleGoPremium]

/-- C8.  While `isPremium` holds, every consume attempt is allowed and
nothing is written: in part_000 `tryConsume` returns the unlimited
outcome with the state unchanged for any limit, and in part_002
`handleSwipe` lets the swipe through without touching the stored count. -/
theorem premium_always_allowed :
    (∀ (limit : Nat) (s : BM0.UserStatus) (now : Int), s.isPremium = true →
      BM0.tryConsume limit s now = (s, .unlimited) ∧
      (BM0.SwipeOutcome.unlimited).isAllowed = true) ∧
    (∀ d : BM2.SwipeData, d.isPremium = true →
      BM2.handleSwipe d = (d, true)) := by
  constructor
  · intro limit s now hs
    refine ⟨?_, rfl⟩
    simp [BM0.tryConsume, BM0.resetSwipeCount, BM0.handleSwipeWith, hs]
  · intro d hd
    simp [BM2.handleSwipe, hd]

/-- Witness for C8 at concrete premium states with the limit exhausted. -/
theorem premium_always_allowed_witness :
    (BM0.tryConsume 0 ⟨50, 0, true⟩ 5 = (⟨50, 0, true⟩, .unlimited) ∧
      (BM0.SwipeOutcome.unlimited).isAllowed = true) ∧
    BM2.handleSwipe ⟨50, true⟩ = (⟨50, true⟩, true) :=
  ⟨premium_always_allowed.1 0 ⟨50, 0, true⟩ 5 rfl,
   premium_always_allowed.2 ⟨50, true⟩ rfl⟩

/-- C9.  A non-premium user at the limit whose window has not rolled
over gets `allowed = false`, the displayed remaining budget 0, and no
mutation at all: every field of the stored status is unchanged. -/
theorem blocked_call_no_mutation (limit : Nat) (s : BM0.UserStatus) (now : Int)
    (hp : s.isPremium = false) (hc : limit ≤ s.swipeCount)
    (hw : now - s.lastSwipeDate < BM0.MILLISECONDS_IN_DAY) :
    BM0.tryConsume limit s now = (s, .limitModal) ∧
    (BM0.SwipeOutcome.limitModal).isAllowed = false ∧
    BM0.swipesRemaining limit s = 0 := by
  have hr : BM0.resetSwipeCount s now = s := by
    simp only [BM0.resetSwipeCount, hp, Bool.false_eq_true, if_false, ite_eq_right_iff]
    intro h
    exact absurd h.1 (not_le.mpr hw)
  refine ⟨?_, rfl, Nat.sub_eq_zero_of_le hc⟩
  simp [BM0.tryConsume, hr, BM0.handleSwipeWith, hp, hc]

/-- Witness for C9 at a concrete blocked state. -/
theorem blocked_call_no_mutation_witness :
    BM0.tryConsume 50 ⟨50, 0, false⟩ 10 = (⟨50, 0, false⟩, .limitModal) ∧
    (BM0.SwipeOutcome.limitModal).isAllowed = false ∧
    BM0.swipesRemaining 50 ⟨50, 0, false⟩ = 0 :=
  blocked_call_no_mutation 50 ⟨50, 0, false⟩ 10 rfl (by decide) (by decide)

/-- C10.  Every successful non-premium consume stores the current time
in `lastSwipeDate` together with the incremented count; the reset check
does nothing within 24 hours of the most recent swipe; and it also does
nothing when `swipeCount = 0`.  Hence a user who swipes at least once
every 24 hours keeps `lastSwipeDate` within a day of every reset check
and never observes a quota reset. -/
theorem swipe_updates_reset_timestamp (limit : Nat)
    (s1 s2 s3 : BM0.UserStatus) (t1 t2 t3 : Int)
    (hp1 : s1.isPremium = false) (hc1 : s1.swipeCount < limit)
    (hw2 : t2 - s2.lastSwipeDate < BM0.MILLISECONDS_IN_DAY)
    (hz3 : s3.swipeCount = 0) :
    BM0.handleSwipeWith limit s1 t1 =
      (⟨s1.swipeCount + 1, t1, false⟩, .success (limit - (s1.swipeCount + 1))) ∧
    BM0.resetSwipeCount s2 t2 = s2 ∧
    BM0.resetSwipeCount s3 t3 = s3 := by
  refine ⟨?_, ?_, ?_⟩
  · have hnc : ¬ limit ≤ s1.swipeCount := Nat.not_le.mpr hc1
    simp only [BM0.handleSwipeWith, hp1, Bool.false_eq_true, if_false,
      if_neg hnc, BM0.swipeTransaction]
  · have hna : ¬ (BM0.MILLISECONDS_IN_DAY ≤ t2 - s2.lastSwipeDate ∧
        0 < s2.swipeCount) := fun h => absurd h.1 (not_le.mpr hw2)
    by_cases hpr : s2.isPremium
    · simp [BM0.resetSwipeCount, hpr]
    · simp [BM0.resetSwipeCount, hpr, hna]
  · have hna : ¬ (BM0.MILLISECONDS_IN_DAY ≤ t3 - s3.lastSwipeDate ∧
        0 < s3.swipeCount) := fun h => by omega
    by_cases hpr : s3.isPremium
    · simp [BM0.resetSwipeCount, hpr]
    · simp [BM0.resetSwipeCount, hpr, hna]

/-- Witness for C10 at concrete inputs. -/
theorem swipe_updates_reset_timestamp_witness :
    BM0.handleSwipeWith 50 ⟨3, 0, false⟩ 777 =
      (⟨3 + 1, 777, false⟩, .success (50 - (3 + 1))) ∧
    BM0.resetSwipeCount ⟨3, 5, false⟩ 6 = ⟨3, 5, false⟩ ∧
    BM0.resetSwipeCount ⟨0, 0, false⟩ 999999999999 = ⟨0, 0, false⟩ :=
  swipe_updates_reset_timestamp 50 ⟨3, 0, false⟩ ⟨3, 5, false⟩ ⟨0, 0, false⟩
    777 6 999999999999 rfl (by decide) (by decide) rfl

namespace BM1

theorem jsLtChars_asymm :
    ∀ x y : List Char, jsLtChars x y = true → jsLtChars y x = false := by
  intro x
  induction x with
  | nil =>
    intro y h
    cases y with
    | nil => simp [jsLtChars] at h
    | cons b bs => simp [jsLtChars]
  | cons a as ih =>
    intro y h
    cases y with
    | nil => simp [jsLtChars] at h
    | cons b bs =>
      simp only [jsLtChars] at h ⊢
      rcases Nat.lt_trichotomy a.toNat b.toNat with hlt | heq | hgt
      · simp [hlt, Nat.lt_asymm hlt]
      · have h1 : ¬ a.toNat < b.toNat := by omega
        have h2 : ¬ b.toNat < a.toNat := by omega
        simp only [h1, h2, if_false] at h ⊢
        exact ih bs h
      · have h1 : ¬ a.toNat < b.toNat := by omega
        simp [h1, hgt] at h

theorem jsLtChars_eq_of_not_lt :
    ∀ x y : List Char, jsLtChars x y = false → jsLtChars y x = false → x = y := by
  intro x
  induction x with
  | nil =>
    intro y h1 _
    cases y with
    | nil => rfl
    | cons b bs => simp [jsLtChars] at h1
  | cons a as ih =>
    intro y h1 h2
    cases y with
    | nil => simp [jsLtChars] at h2
    | cons b bs =>
      simp only [jsLtChars] at h1 h2
      rcases Nat.lt_trichotomy a.toNat b.toNat with hlt | heq | hgt
      · simp [hlt] at h1
      · have hab : a = b := by
          have hv : a.val = b.val := UInt32.toNat.inj heq
          exact Char.eq_of_val_eq hv
        have h1' : ¬ a.toNat < b.toNat := by omega
        have h2' : ¬ b.toNat < a.toNat := by omega
        simp only [h1', h2', if_false] at h1 h2
        rw [hab, ih bs h1 h2]
      · simp [hgt] at h2

theorem jsLt_asymm (a b : String) (h : jsLt a b = true) : jsLt b a = false :=
  jsLtChars_asymm a.data b.data h

theorem jsLt_eq_of_not (a b : String) (h1 : jsLt a b = false)
    (h2 : jsLt b a = false) : a = b := by
  have h := jsLtChars_eq_of_not_lt a.data b.data h1 h2
  cases a; cases b; simp only at h; rw [h]

/-- The canonical match id does not depend on the direction of the like. -/
theorem matchKey_comm (a b : UserId) : matchKey a b = matchKey b a := by
  unfold matchKey
  cases hba : jsLt b a with
  | true => simp [hba, jsLt_asymm b a hba]
  | false =>
    cases hab : jsLt a b with
    | true => simp [hba, hab]
    | false => simp [hba, hab, jsLt_eq_of_not a b hab hba]

theorem string_eq_of_data_eq {s t : String} (h : s.data = t.data) : s = t := by
  cases s; cases t; simp only at h; rw [h]

theorem data_append (s t : String) : (s ++ t).data = s.data ++ t.data := rfl

theorem noUnderscore_iff (s : String) :
    noUnderscore s = true ↔ '_' ∉ s.data := by
  simp only [noUnderscore, List.all_eq_true, bne_iff_ne, ne_eq]
  constructor
  · intro h hm
    exact (h '_' hm) rfl
  · intro h c hc he
    exact h (he ▸ hc)

/-- Splitting a separator-joined pair of underscore-free chunks is
unambiguous. -/
theorem split_underscore :
    ∀ (a c b d : List Char), '_' ∉ a → '_' ∉ c →
      a ++ '_' :: b = c ++ '_' :: d → a = c ∧ b = d := by
  intro a
  induction a with
  | nil =>
    intro c b d _ hc h
    cases c with
    | nil => simpa using h
    | cons x cs =>
      simp only [List.nil_append, List.cons_append, List.cons.injEq] at h
      exact absurd (h.1 ▸ List.mem_cons_self x cs) (h.1 ▸ hc)
  | cons x as ih =>
    intro c b d ha hc h
    cases c with
    | nil =>
      simp only [List.nil_append, List.cons_append, List.cons.injEq] at h
      exact absurd (h.1 ▸ List.mem_cons_self x as) (by rw [h.1] at ha; exact ha)
    | cons y cs =>
      simp only [List.cons_append, List.cons.injEq] at h
      obtain ⟨hxy, htl⟩ := h
      have ha' : '_' ∉ as := fun hm => ha (List.mem_cons_of_mem x hm)
      have hc' : '_' ∉ cs := fun hm => hc (List.mem_cons_of_mem y hm)
      obtain ⟨h1, h2⟩ := ih cs b d ha' hc' htl
      exact ⟨by rw [hxy, h1], h2⟩

/-- The joined id of underscore-free components determines the
components. -/
theorem join_inj {a b c d : String}
    (ha : noUnderscore a = true) (hc : noUnderscore c = true)
    (h : a ++ "_" ++ b = c ++ "_" ++ d) : a = c ∧ b = d := by
  have hd : a.data ++ '_' :: b.data = c.data ++ '_' :: d.data := by
    have := congrArg String.data h
    simpa [data_append] using this
  obtain ⟨h1, h2⟩ := split_underscore a.data c.data b.data d.data
    ((noUnderscore_iff a).mp ha) ((noUnderscore_iff c).mp hc) hd
  exact ⟨string_eq_of_data_eq h1, string_eq_of_data_eq h2⟩

/-- For underscore-free ids, the canonical match id of a fixed owner
determines the partner. -/
theorem matchKey_inj_right {u p q : UserId}
    (hu : noUnderscore u = true) (hp : noUnderscore p = true)
    (hq : noUnderscore q = true) (h : matchKey u p = matchKey u q) : p = q := by
  unfold matchKey at h
  by_cases h1 : jsLt p u = true <;> by_cases h2 : jsLt q u = true <;>
    simp only [h1, h2, if_true, if_false, Bool.not_eq_true] at h
  · exact (join_inj hp hq h).1
  · obtain ⟨hpu, huq⟩ := join_inj hp hu h
    rw [hpu, huq]
  · obtain ⟨huq, hpu⟩ := join_inj hu hq h
    rw [← huq, ← hpu]
  · exact (join_inj hu hu h).2

/-- The canonical document written by `checkForMatch` is in the merged
collection. -/
theorem mem_setDocMerge_self (ms : List (UserId × String × UserId))
    (o : UserId) (k : String) (v : UserId) :
    (o, k, v) ∈ setDocMerge ms o k v := by
  unfold setDocMerge
  cases hany : ms.any (fun r => r.1 == o && r.2.1 == k) with
  | false => simp
  | true =>
    simp only [if_true]
    obtain ⟨r0, hr0, hk0⟩ := List.any_eq_true.mp hany
    exact List.mem_map.mpr ⟨r0, hr0, by simp [hk0]⟩

/-- Documents at other keys are untouched by the merge write. -/
theorem mem_setDocMerge_of_ne (ms : List (UserId × String × UserId))
    (o : UserId) (k : String) (v : UserId) (r : UserId × String × UserId)
    (hr : r ∈ ms) (hk : ¬ (r.1 = o ∧ r.2.1 = k)) :
    r ∈ setDocMerge ms o k v := by
  have hkb : (r.1 == o && r.2.1 == k) = false := by
    rcases not_and_or.mp hk with h | h <;> simp [h]
  unfold setDocMerge
  cases hany : ms.any (fun r => r.1 == o && r.2.1 == k) with
  | false => exact List.mem_cons_of_mem _ hr
  | true =>
    simp only [if_true]
    exact List.mem_map.mpr ⟨r, hr, by simp [hkb]⟩

/-- Every document in the merged collection is the written one or an
original. -/
theorem of_mem_setDocMerge {ms : List (UserId × String × UserId)}
    {o : UserId} {k : String} {v : UserId} {r : UserId × String × UserId}
    (h : r ∈ setDocMerge ms o k v) : r = (o, k, v) ∨ r ∈ ms := by
  unfold setDocMerge at h
  cases hany : ms.any (fun r => r.1 == o && r.2.1 == k) with
  | false =>
    rw [hany] at h
    simp only [Bool.false_eq_true, if_false] at h
    rcases List.mem_cons.mp h with h | h
    · exact Or.inl h
    · exact Or.inr h
  | true =>
    rw [hany] at h
    simp only [if_true] at h
    obtain ⟨r0, hr0, hmap⟩ := List.mem_map.mp h
    by_cases hk0 : (r0.1 == o && r0.2.1 == k) = true
    · rw [if_pos hk0] at hmap
      exact Or.inl hmap.symm
    · rw [if_neg hk0] at hmap
      exact Or.inr (hmap ▸ hr0)

/-- Replacing by `x` the elements that satisfy `p` changes nothing when
every such element already is `x`. -/
theorem map_replace_eq_self {α : Type} (l : List α) (p : α → Bool) (x : α)
    (h : ∀ r ∈ l, p r = true → r = x) :
    l.map (fun r => if p r then x else r) = l := by
  induction l with
  | nil => rfl
  | cons a as ih =>
    simp only [List.map_cons]
    have ha : (if p a then x else a) = a := by
      by_cases hp : p a = true
      · rw [if_pos hp, h a (List.mem_cons_self a as) hp]
      · rw [if_neg hp]
    rw [ha, ih (fun r hr hp => h r (List.mem_cons_of_mem a hr) hp)]

/-- Unfolding of `setDocMerge` when a document with the key exists. -/
theorem setDocMerge_any_true {ms : List (UserId × String × UserId)}
    {o : UserId} {k : String} (v : UserId)
    (h : (ms.any fun r => r.1 == o && r.2.1 == k) = true) :
    setDocMerge ms o k v =
      ms.map (fun r => if r.1 == o && r.2.1 == k then (o, k, v) else r) := by
  unfold setDocMerge
  simp [h]

/-- Rewriting the same document again is a no-op. -/
theorem setDocMerge_idem (ms : List (UserId × String × UserId))
    (o : UserId) (k : String) (v : UserId) :
    setDocMerge (setDocMerge ms o k v) o k v = setDocMerge ms o k v := by
  have hany : (setDocMerge ms o k v).any (fun r => r.1 == o && r.2.1 == k) = true :=
    List.any_eq_true.mpr ⟨(o, k, v), mem_setDocMerge_self ms o k v, by simp⟩
  have hall : ∀ r ∈ setDocMerge ms o k v,
      (r.1 == o && r.2.1 == k) = true → r = (o, k, v) := by
    intro r hr hk
    rcases of_mem_setDocMerge hr with h | h
    · exact h
    · unfold setDocMerge at hr
      cases hany0 : ms.any (fun r => r.1 == o && r.2.1 == k) with
      | false =>
        rw [hany0] at hr
        simp only [Bool.false_eq_true, if_false] at hr
        rcases List.mem_cons.mp hr with h' | h'
        · exact h'
        · have hcontra : (ms.any fun r => r.1 == o && r.2.1 == k) = true :=
            List.any_eq_true.mpr ⟨r, h', hk⟩
          rw [hany0] at hcontra
          exact absurd hcontra (by simp)
      | true =>
        rw [hany0] at hr
        simp only [if_true] at hr
        obtain ⟨r0, hr0, hmap⟩ := List.mem_map.mp hr
        by_cases hk0 : (r0.1 == o && r0.2.1 == k) = true
        · rw [if_pos hk0] at hmap
          exact hmap.symm
        · rw [if_neg hk0] at hmap
          rw [← hmap] at hk
          exact absurd hk hk0
  rw [setDocMerge_any_true v hany]
  exact map_replace_eq_self _ _ _ hall

/-- A keyed `setDoc` with the same key is a no-op the second time. -/
theorem setDocKeyed_idem (ps : List (UserId × UserId)) (k : UserId × UserId) :
    setDocKeyed (setDocKeyed ps k) k = setDocKeyed ps k := by
  by_cases h : k ∈ ps <;> simp [setDocKeyed, h]

/-- Closed form of one `likeSwipe` call, by cases on whether the reverse
public like is present after the new like is added. -/
theorem likeSwipe_eq (st : MatchState) (u p : UserId) :
    likeSwipe st u p =
      if (((u, p) :: st.pub).any fun e => e.1 == p && e.2 == u) = true then
        (⟨(u, p) :: st.pub, setDocKeyed st.priv (u, p),
          setDocMerge st.matchDocs u (matchKey u p) p⟩,
         true, some (matchKey u p))
      else
        (⟨(u, p) :: st.pub, setDocKeyed st.priv (u, p), st.matchDocs⟩,
         false, none) := by
  by_cases h : (((u, p) :: st.pub).any fun e => e.1 == p && e.2 == u) = true
  · rw [if_pos h]
    unfold likeSwipe checkForMatch
    simp only [h, if_true]
  · rw [if_neg h]
    unfold likeSwipe checkForMatch
    simp only [Bool.not_eq_true] at h
    simp only [h, Bool.false_eq_true, if_false]

/-- Scanning a collection that holds the same document twice gives the
same answer as scanning it once. -/
theorem any_dup (x : UserId × UserId) (l : List (UserId × UserId))
    (f : UserId × UserId → Bool) : (x :: x :: l).any f = (x :: l).any f := by
  cases hf : f x <;> simp [List.any_cons, hf]

/-- Effect of repeating the same like immediately: the matched result
and match id are the same, the keyed private like and the matches
collection are unchanged, but a duplicate public like document is
appended. -/
theorem likeSwipe_twice (st : MatchState) (A B : UserId) :
    (likeSwipe (likeSwipe st A B).1 A B).2.1 = (likeSwipe st A B).2.1 ∧
    (likeSwipe (likeSwipe st A B).1 A B).2.2 = (likeSwipe st A B).2.2 ∧
    (likeSwipe (likeSwipe st A B).1 A B).1.priv = (likeSwipe st A B).1.priv ∧
    (likeSwipe (likeSwipe st A B).1 A B).1.matchDocs =
      (likeSwipe st A B).1.matchDocs ∧
    (likeSwipe (likeSwipe st A B).1 A B).1.pub = (A, B) :: (likeSwipe st A B).1.pub := by
  by_cases hc : (((A, B) :: st.pub).any fun e => e.1 == B && e.2 == A) = true
  · have h1 : likeSwipe st A B =
        (⟨(A, B) :: st.pub, setDocKeyed st.priv (A, B),
          setDocMerge st.matchDocs A (matchKey A B) B⟩,
         true, some (matchKey A B)) := by
      rw [likeSwipe_eq, if_pos hc]
    have hc2 : (((A, B) :: (A, B) :: st.pub).any
        fun e => e.1 == B && e.2 == A) = true := by
      rw [any_dup]; exact hc
    have h2 : likeSwipe (likeSwipe st A B).1 A B =
        (⟨(A, B) :: (A, B) :: st.pub,
          setDocKeyed (setDocKeyed st.priv (A, B)) (A, B),
          setDocMerge (setDocMerge st.matchDocs A (matchKey A B) B) A
            (matchKey A B) B⟩,
         true, some (matchKey A B)) := by
      rw [h1, likeSwipe_eq]
      simp only [hc2, if_true]
    rw [h2, h1]
    simp [setDocKeyed_idem, setDocMerge_idem]
  · have hcf : (((A, B) :: st.pub).any fun e => e.1 == B && e.2 == A) = false :=
      Bool.not_eq_true _ ▸ eq_false_of_ne_true hc
    have h1 : likeSwipe st A B =
        (⟨(A, B) :: st.pub, setDocKeyed st.priv (A, B), st.matchDocs⟩,
         false, none) := by
      rw [likeSwipe_eq, if_neg hc]
    have hc2 : (((A, B) :: (A, B) :: st.pub).any
        fun e => e.1 == B && e.2 == A) = false := by
      rw [any_dup]; exact hcf
    have h2 : likeSwipe (likeSwipe st A B).1 A B =
        (⟨(A, B) :: (A, B) :: st.pub,
          setDocKeyed (setDocKeyed st.priv (A, B)) (A, B), st.matchDocs⟩,
         false, none) := by
      rw [h1, likeSwipe_eq]
      simp only [hc2, Bool.false_eq_true, if_false]
    rw [h2, h1]
    simp [setDocKeyed_idem]

theorem pubHas_iff (st : MatchState) (a b : UserId) :
    pubHas st a b = true ↔ (a, b) ∈ st.pub := by
  constructor
  · intro h
    obtain ⟨e, he, hcond⟩ := List.any_eq_true.mp h
    simp only [Bool.and_eq_true, beq_iff_eq] at hcond
    have : e = (a, b) := Prod.ext hcond.1 hcond.2
    exact this ▸ he
  · intro h
    exact List.any_eq_true.mpr ⟨(a, b), h, by simp⟩

theorem matchFor_true_of_mem {st : MatchState} {a b : UserId}
    {r : UserId × String × UserId} (hr : r ∈ st.matchDocs)
    (h : (r.1 = a ∧ r.2.2 = b) ∨ (r.1 = b ∧ r.2.2 = a)) :
    matchFor st a b = true := by
  refine List.any_eq_true.mpr ⟨r, hr, ?_⟩
  rcases h with ⟨h1, h2⟩ | ⟨h1, h2⟩ <;> simp [h1, h2]

theorem of_matchFor_true {st : MatchState} {a b : UserId}
    (h : matchFor st a b = true) :
    ∃ r ∈ st.matchDocs, (r.1 = a ∧ r.2.2 = b) ∨ (r.1 = b ∧ r.2.2 = a) := by
  obtain ⟨r, hr, hcond⟩ := List.any_eq_true.mp h
  simp only [Bool.or_eq_true, Bool.and_eq_true, beq_iff_eq] at hcond
  exact ⟨r, hr, hcond⟩

/-- One like event preserves the matches/likes invariant, provided the
ids involved are underscore-free. -/
theorem likeSwipe_inv {st : MatchState} {u p : UserId}
    (hu : noUnderscore u = true) (hp : noUnderscore p = true)
    (hI : Inv st) : Inv (likeSwipe st u p).1 := by
  obtain ⟨hA, hB, hC⟩ := hI
  by_cases hc : (((u, p) :: st.pub).any fun e => e.1 == p && e.2 == u) = true
  · have heq : (likeSwipe st u p).1 =
        ⟨(u, p) :: st.pub, setDocKeyed st.priv (u, p),
          setDocMerge st.matchDocs u (matchKey u p) p⟩ := by
      rw [likeSwipe_eq, if_pos hc]
    have hrev : (p, u) ∈ (u, p) :: st.pub := by
      obtain ⟨e, he, hcond⟩ := List.any_eq_true.mp hc
      simp only [Bool.and_eq_true, beq_iff_eq] at hcond
      have : e = (p, u) := Prod.ext hcond.1 hcond.2
      exact this ▸ he
    rw [heq]
    refine ⟨?_, ?_, ?_⟩
    · intro r hr
      rcases of_mem_setDocMerge hr with h | h
      · rw [h]
        exact ⟨rfl, List.mem_cons_self _ _, hrev⟩
      · obtain ⟨h1, h2, h3⟩ := hA r h
        exact ⟨h1, List.mem_cons_of_mem _ h2, List.mem_cons_of_mem _ h3⟩
    · intro a b hab hba
      simp only [matchFor]
      by_cases hpair : (a = u ∧ b = p) ∨ (a = p ∧ b = u)
      · refine List.any_eq_true.mpr
          ⟨(u, matchKey u p, p), mem_setDocMerge_self _ _ _ _, ?_⟩
        rcases hpair with ⟨h1, h2⟩ | ⟨h1, h2⟩ <;> simp [h1, h2]
      · have hab' : (a, b) ∈ st.pub := by
          rcases List.mem_cons.mp hab with h | h
          · obtain ⟨h1, h2⟩ := Prod.ext_iff.mp h
            exact absurd (Or.inl ⟨h1, h2⟩) hpair
          · exact h
        have hba' : (b, a) ∈ st.pub := by
          rcases List.mem_cons.mp hba with h | h
          · obtain ⟨h1, h2⟩ := Prod.ext_iff.mp h
            exact absurd (Or.inr ⟨h2, h1⟩) hpair
          · exact h
        obtain ⟨r, hr, hcond⟩ := of_matchFor_true (hB a b hab' hba')
        by_cases hkey : r.1 = u ∧ r.2.1 = matchKey u p
        · have hupp : r.2.2 = p := by
            have h1 := (hA r hr).1
            have hpub := (hA r hr).2.1
            have hq : noUnderscore r.2.2 = true := (hC _ hpub).2
            have hmk : matchKey u r.2.2 = matchKey u p := by
              conv_lhs => rw [← hkey.1, ← h1]
              exact hkey.2
            exact matchKey_inj_right hu hq hp hmk
          have hrw : r = (u, matchKey u p, p) := by
            obtain ⟨x, y, z⟩ := r
            simp only at hkey hupp
            rw [hkey.1, hkey.2, hupp]
          refine List.any_eq_true.mpr
            ⟨(u, matchKey u p, p), mem_setDocMerge_self _ _ _ _, ?_⟩
          rw [← hrw]
          rcases hcond with ⟨h1, h2⟩ | ⟨h1, h2⟩ <;> simp [h1, h2]
        · refine List.any_eq_true.mpr
            ⟨r, mem_setDocMerge_of_ne _ _ _ _ r hr hkey, ?_⟩
          rcases hcond with ⟨h1, h2⟩ | ⟨h1, h2⟩ <;> simp [h1, h2]
    · intro e he
      rcases List.mem_cons.mp he with h | h
      · rw [h]; exact ⟨hu, hp⟩
      · exact hC e h
  · have hcf : (((u, p) :: st.pub).any fun e => e.1 == p && e.2 == u) = false :=
      Bool.not_eq_true _ ▸ eq_false_of_ne_true hc
    have heq : (likeSwipe st u p).1 =
        ⟨(u, p) :: st.pub, setDocKeyed st.priv (u, p), st.matchDocs⟩ := by
      rw [likeSwipe_eq, if_neg hc]
    have hnrev : (p, u) ∉ (u, p) :: st.pub := by
      intro hmem
      exact hc (List.any_eq_true.mpr ⟨(p, u), hmem, by simp⟩)
    rw [heq]
    refine ⟨?_, ?_, ?_⟩
    · intro r hr
      obtain ⟨h1, h2, h3⟩ := hA r hr
      exact ⟨h1, List.mem_cons_of_mem _ h2, List.mem_cons_of_mem _ h3⟩
    · intro a b hab hba
      rcases List.mem_cons.mp hab with h | hab'
      · injection h with h1 h2
        subst h1; subst h2
        exact absurd hba hnrev
      · rcases List.mem_cons.mp hba with h | hba'
        · injection h with h1 h2
          subst h1; subst h2
          exact absurd (List.mem_cons_of_mem _ hab') hnrev
        · simpa only [matchFor] using hB a b hab' hba'
    · intro e he
      rcases List.mem_cons.mp he with h | h
      · rw [h]; exact ⟨hu, hp⟩
      · exact hC e h

theorem Inv_empty : Inv MatchState.empty := by
  refine ⟨?_, ?_, ?_⟩
  · intro r hr
    simp [MatchState.empty] at hr
  · intro a b hab _
    simp [MatchState.empty] at hab
  · intro e he
    simp [MatchState.empty] at he

/-- The invariant holds in every store reachable by a sequence of like
events with underscore-free ids. -/
theorem runLikes_inv (evs : List (UserId × UserId))
    (h : ∀ e ∈ evs, noUnderscore e.1 = true ∧ noUnderscore e.2 = true) :
    Inv (runLikes evs) := by
  unfold runLikes
  suffices hgen : ∀ (l : List (UserId × UserId)) (st : MatchState), Inv st →
      (∀ e ∈ l, noUnderscore e.1 = true ∧ noUnderscore e.2 = true) →
      Inv (l.foldl (fun st e => (likeSwipe st e.1 e.2).1) st) by
    exact hgen evs MatchState.empty Inv_empty h
  intro l
  induction l with
  | nil => intro st hI _; simpa using hI
  | cons e l ih =>
    intro st hI hall
    simp only [List.foldl_cons]
    exact ih _ (likeSwipe_inv (hall e (List.mem_cons_self e l)).1
      (hall e (List.mem_cons_self e l)).2 hI)
      (fun e' he' => hall e' (List.mem_cons_of_mem e he'))

end BM1

/-- C3 counterexample.  With ids containing the underscore that
`matchKey` uses as separator, the sorted-join key can collide across
pairs with a common member: `matchKey "a_b_a" "a_b" = matchKey "a_b_a"
"b_a"`.  After mutual likes between `a_b_a` and `a_b` and then mutual
likes between `a_b_a` and `b_a`, the merge-write of the second match
overwrites the first one's `partnerId` at the same document, so both
`LikeRecord(a_b_a, a_b)` and `LikeRecord(a_b, a_b_a)` exist while no
MatchRecord for the pair `{a_b_a, a_b}` remains — refuting the
exists-iff-both-likes invariant. -/
theorem match_iff_likes_counterexample :
    BM1.matchKey "a_b_a" "a_b" = BM1.matchKey "a_b_a" "b_a" ∧
    BM1.pubHas (BM1.runLikes
      [("a_b", "a_b_a"), ("a_b_a", "a_b"), ("b_a", "a_b_a"), ("a_b_a", "b_a")])
      "a_b_a" "a_b" = true ∧
    BM1.pubHas (BM1.runLikes
      [("a_b", "a_b_a"), ("a_b_a", "a_b"), ("b_a", "a_b_a"), ("a_b_a", "b_a")])
      "a_b" "a_b_a" = true ∧
    BM1.matchFor (BM1.runLikes
      [("a_b", "a_b_a"), ("a_b_a", "a_b"), ("b_a", "a_b_a"), ("a_b_a", "b_a")])
      "a_b_a" "a_b" = false := by decide

/-- C3 amended.  For stores reached by like events whose ids are free of
the underscore separator: a MatchRecord whose participants are the pair
`{A, B}` exists if and only if both directed public LikeRecords exist;
moreover for distinct users the match is created exactly at the moment
of the second like (absent after the first like, present after the
reverse like), and repeating the creating call leaves the matches
collection unchanged. -/
theorem match_iff_mutual_likes (evs : List (BM1.UserId × BM1.UserId))
    (h : ∀ e ∈ evs, BM1.noUnderscore e.1 = true ∧ BM1.noUnderscore e.2 = true) :
    (∀ A B : BM1.UserId,
      BM1.matchFor (BM1.runLikes evs) A B = true ↔
        ((A, B) ∈ (BM1.runLikes evs).pub ∧ (B, A) ∈ (BM1.runLikes evs).pub)) ∧
    (∀ A B : BM1.UserId, A ≠ B →
      BM1.matchFor (BM1.runLikes [(A, B)]) A B = false ∧
      BM1.matchFor (BM1.runLikes [(A, B), (B, A)]) A B = true ∧
      (BM1.runLikes [(A, B), (B, A), (B, A)]).matchDocs =
        (BM1.runLikes [(A, B), (B, A)]).matchDocs) := by
  constructor
  · intro A B
    have hI := BM1.runLikes_inv evs h
    constructor
    · intro hm
      obtain ⟨r, hr, hcond⟩ := BM1.of_matchFor_true hm
      obtain ⟨_, h2, h3⟩ := hI.1 r hr
      rcases hcond with ⟨ha, hb⟩ | ⟨ha, hb⟩
      · rw [ha, hb] at h2 h3
        exact ⟨h2, h3⟩
      · rw [ha, hb] at h2 h3
        exact ⟨h3, h2⟩
    · intro ⟨h1, h2⟩
      exact hI.2.1 A B h1 h2
  · intro A B hne
    have hAB : (A == B) = false := beq_eq_false_iff_ne.mpr hne
    have hBA : (B == A) = false := beq_eq_false_iff_ne.mpr (Ne.symm hne)
    have h1 : BM1.likeSwipe BM1.MatchState.empty A B =
        (⟨[(A, B)], [(A, B)], []⟩, false, none) := by
      rw [BM1.likeSwipe_eq]
      simp [BM1.MatchState.empty, BM1.setDocKeyed, hAB, hBA]
    have hrun1 : BM1.runLikes [(A, B)] = (⟨[(A, B)], [(A, B)], []⟩ : BM1.MatchState) := by
      unfold BM1.runLikes
      simp only [List.foldl_cons, List.foldl_nil, h1]
    have h2 : BM1.likeSwipe (⟨[(A, B)], [(A, B)], []⟩ : BM1.MatchState) B A =
        (⟨[(B, A), (A, B)], [(B, A), (A, B)],
          [(B, BM1.matchKey B A, A)]⟩, true, some (BM1.matchKey B A)) := by
      rw [BM1.likeSwipe_eq]
      simp [BM1.setDocKeyed, BM1.setDocMerge, hAB, hBA, List.any_cons,
        Prod.ext_iff, hne, Ne.symm hne]
    have hrun2 : BM1.runLikes [(A, B), (B, A)] =
        (⟨[(B, A), (A, B)], [(B, A), (A, B)],
          [(B, BM1.matchKey B A, A)]⟩ : BM1.MatchState) := by
      unfold BM1.runLikes
      simp only [List.foldl_cons, List.foldl_nil, h1, h2]
    refine ⟨?_, ?_, ?_⟩
    · rw [hrun1]
      simp [BM1.matchFor]
    · rw [hrun2]
      exact BM1.matchFor_true_of_mem (List.mem_cons_self _ _) (Or.inr ⟨rfl, rfl⟩)
    · have hstep : BM1.runLikes [(A, B), (B, A), (B, A)] =
          (BM1.likeSwipe (BM1.likeSwipe (BM1.likeSwipe
            BM1.MatchState.empty A B).1 B A).1 B A).1 := by
        unfold BM1.runLikes
        simp only [List.foldl_cons, List.foldl_nil]
      have hstep2 : BM1.runLikes [(A, B), (B, A)] =
          (BM1.likeSwipe (BM1.likeSwipe BM1.MatchState.empty A B).1 B A).1 := by
        unfold BM1.runLikes
        simp only [List.foldl_cons, List.foldl_nil]
      rw [hstep, hstep2]
      exact (BM1.likeSwipe_twice (BM1.likeSwipe BM1.MatchState.empty A B).1
        B A).2.2.2.1

/-- Witness for C3 amended at concrete underscore-free ids. -/
theorem match_iff_mutual_likes_witness :
    (BM1.matchFor (BM1.runLikes [("alice", "bob"), ("bob", "alice")])
        "alice" "bob" = true ↔
      (("alice", "bob") ∈ (BM1.runLikes [("alice", "bob"), ("bob", "alice")]).pub ∧
       ("bob", "alice") ∈ (BM1.runLikes [("alice", "bob"), ("bob", "alice")]).pub)) ∧
    (BM1.matchFor (BM1.runLikes [("alice", "bob")]) "alice" "bob" = false ∧
     BM1.matchFor (BM1.runLikes [("alice", "bob"), ("bob", "alice")])
       "alice" "bob" = true ∧
     (BM1.runLikes [("alice", "bob"), ("bob", "alice"), ("bob", "alice")]).matchDocs =
       (BM1.runLikes [("alice", "bob"), ("bob", "alice")]).matchDocs) :=
  ⟨(match_iff_mutual_likes [("alice", "bob"), ("bob", "alice")]
      (by decide)).1 "alice" "bob",
   (match_iff_mutual_likes [("alice", "bob"), ("bob", "alice")]
      (by decide)).2 "alice" "bob" (by decide)⟩

/-- C5 counterexample.  Calling the like operation twice with the same
arguments does not leave the like-record set unchanged: the public likes
collection receives a second document for the same directed edge
(`addDoc` creates a fresh document on every call), so the state after
the second call differs from the state after the first. -/
theorem evaluate_idempotent_counterexample :
    (BM1.likeSwipe (BM1.likeSwipe BM1.MatchState.empty "alice" "bob").1
        "alice" "bob").1.pub ≠
      (BM1.likeSwipe BM1.MatchState.empty "alice" "bob").1.pub ∧
    (BM1.likeSwipe (BM1.likeSwipe BM1.MatchState.empty "alice" "bob").1
        "alice" "bob").1 ≠
      (BM1.likeSwipe BM1.MatchState.empty "alice" "bob").1 := by decide

/-- C5 amended.  Calling `evaluate(A, B, ·)` twice with the same
arguments returns the same matched result and match id both times and
leaves the keyed private like record and the matches collection
unchanged; however, the second call appends a duplicate public
LikeRecord for the ordered pair, so the public like set is not
unchanged.  (The at-most-one-LikeRecord-per-ordered-pair invariant fails
for the public likes collection.) -/
theorem evaluate_like_insert_effects (st : BM1.MatchState) (A B : BM1.UserId) :
    (BM1.likeSwipe (BM1.likeSwipe st A B).1 A B).2.1 =
      (BM1.likeSwipe st A B).2.1 ∧
    (BM1.likeSwipe (BM1.likeSwipe st A B).1 A B).2.2 =
      (BM1.likeSwipe st A B).2.2 ∧
    (BM1.likeSwipe (BM1.likeSwipe st A B).1 A B).1.priv =
      (BM1.likeSwipe st A B).1.priv ∧
    (BM1.likeSwipe (BM1.likeSwipe st A B).1 A B).1.matchDocs =
      (BM1.likeSwipe st A B).1.matchDocs ∧
    (BM1.likeSwipe (BM1.likeSwipe st A B).1 A B).1.pub =
      (A, B) :: (BM1.likeSwipe st A B).1.pub :=
  BM1.likeSwipe_twice st A B

/-- C4.  Order independence of match evaluation: from a fresh store, the
first like of a distinct pair reports no match, the reverse like then
reports a match whose id is the canonical key of the sorted pair, and
performing the two likes in the opposite order produces the same final
match id. -/
theorem evaluate_order_independence (A B : BM1.UserId) (hne : A ≠ B) :
    (BM1.likeSwipe BM1.MatchState.empty A B).2.1 = false ∧
    (BM1.likeSwipe (BM1.likeSwipe BM1.MatchState.empty A B).1 B A).2.1 = true ∧
    (BM1.likeSwipe (BM1.likeSwipe BM1.MatchState.empty A B).1 B A).2.2 =
      some (BM1.matchKey A B) ∧
    (BM1.likeSwipe (BM1.likeSwipe BM1.MatchState.empty B A).1 A B).2.2 =
      (BM1.likeSwipe (BM1.likeSwipe BM1.MatchState.empty A B).1 B A).2.2 := by
  have hAB : (A == B) = false := beq_eq_false_iff_ne.mpr hne
  have hBA : (B == A) = false := beq_eq_false_iff_ne.mpr (Ne.symm hne)
  have h1 : BM1.likeSwipe BM1.MatchState.empty A B =
      (⟨[(A, B)], [(A, B)], []⟩, false, none) := by
    rw [BM1.likeSwipe_eq]
    simp [BM1.MatchState.empty, BM1.setDocKeyed, hAB, hBA]
  have h1' : BM1.likeSwipe BM1.MatchState.empty B A =
      (⟨[(B, A)], [(B, A)], []⟩, false, none) := by
    rw [BM1.likeSwipe_eq]
    simp [BM1.MatchState.empty, BM1.setDocKeyed, hAB, hBA]
  have h2 : BM1.likeSwipe (⟨[(A, B)], [(A, B)], []⟩ : BM1.MatchState) B A =
      (⟨[(B, A), (A, B)], [(B, A), (A, B)],
        [(B, BM1.matchKey B A, A)]⟩, true, some (BM1.matchKey B A)) := by
    rw [BM1.likeSwipe_eq]
    simp [BM1.setDocKeyed, BM1.setDocMerge, hAB, hBA, List.any_cons,
      Prod.ext_iff, hne, Ne.symm hne]
  have h2' : BM1.likeSwipe (⟨[(B, A)], [(B, A)], []⟩ : BM1.MatchState) A B =
      (⟨[(A, B), (B, A)], [(A, B), (B, A)],
        [(A, BM1.matchKey A B, B)]⟩, true, some (BM1.matchKey A B)) := by
    rw [BM1.likeSwipe_eq]
    simp [BM1.setDocKeyed, BM1.setDocMerge, hAB, hBA, List.any_cons,
      Prod.ext_iff, hne, Ne.symm hne]
  refine ⟨by rw [h1], ?_, ?_, ?_⟩
  · rw [h1, h2]
  · rw [h1, h2, BM1.matchKey_comm]
  · rw [h1, h2, h1', h2', BM1.matchKey_comm]

/-- Witness for C4 at concrete distinct user ids. -/
theorem evaluate_order_independence_witness :
    (BM1.likeSwipe BM1.MatchState.empty "alice" "bob").2.1 = false ∧
    (BM1.likeSwipe (BM1.likeSwipe BM1.MatchState.empty "alice" "bob").1
        "bob" "alice").2.1 = true ∧
    (BM1.likeSwipe (BM1.likeSwipe BM1.MatchState.empty "alice" "bob").1
        "bob" "alice").2.2 = some (BM1.matchKey "alice" "bob") ∧
    (BM1.likeSwipe (BM1.likeSwipe BM1.MatchState.empty "bob" "alice").1
        "alice" "bob").2.2 =
      (BM1.likeSwipe (BM1.likeSwipe BM1.MatchState.empty "alice" "bob").1
        "bob" "alice").2.2 :=
  evaluate_order_independence "alice" "bob" (by decide)
